import Mathlib

/-!
# Pigeon relayer: control loop and Paloma protocol client

A shallow embedding of `relayer/start.go` (the control loop of `Relayer.Start`)
and of `chain/paloma/client.go` (the protocol client), followed by the
properties proved about them.

Conventions of the embedding:

* a Go `error` result is an `Option`: `none` is the nil error;
* the error values that collaborators hand to the code are taken from an
  arbitrary type `E`; `errors.IsUnrecoverable`, which lives outside the two
  embedded files, is a parameter `isUnrecoverable : E → Bool`;
* a Go slice result that may be nil is an `Option (List _)`: `none` is nil;
* the blocking `select` of the loop is driven by an explicit list of events,
  one per wake-up.
-/

namespace Pigeon

/-! ## relayer/start.go -/

namespace Relayer

/-- The constant `defaultErrorCountToExit`. -/
def defaultErrorCountToExit : Nat := 5

/-- The non-nil error values that `Start` builds or passes on, one constructor
per return expression of the loop. -/
inductive StartError (E : Type) where
  /-- The value of `ctx.Err()` once the context has ended. -/
  | ctxErr : StartError E
  /-- An error of a collaborator, returned as it was received (`return err`). -/
  | passed (err : E) : StartError E
  /-- The value `errors.Unrecoverable(consecutiveFailures)`. -/
  | unrecoverable (group : List E) : StartError E
  /-- The value `whoops.WrapS(ErrUnknown, "ticker channel ... closed unexpectedly")`. -/
  | unknownTickerClosed : StartError E
  deriving DecidableEq, Repr

/-- What the collaborators answer during one run of the `process` closure:
whether `ctx.Err()` is non-nil at its top, the error of `r.buildProcessors`
and the error of `r.Process`. -/
structure Cycle (E : Type) where
  ctxEnded : Bool
  buildProcessors : Option E
  Process : Option E
  deriving DecidableEq, Repr

/-- The variables the loop carries from one iteration to the next:
`consecutiveFailures`, and a counter of the calls of `r.Process` made so far
(the counter is not in the source; it records the calls). -/
structure LoopState (E : Type) where
  consecutiveFailures : List E
  processCalls : Nat
  deriving DecidableEq, Repr

/-- The closure `process` of `Start`: the state after the run and the error it
returns (`none` for nil). `whoops.Group.Add` of a non-nil error appends it. -/
def process {E : Type} (isUnrecoverable : E → Bool) (s : LoopState E) (c : Cycle E) :
    LoopState E × Option (StartError E) :=
  if c.ctxEnded then
    (s, some StartError.ctxErr)
  else
    match c.buildProcessors with
    | some err => (s, some (StartError.passed err))
    | none =>
      let s1 : LoopState E := { s with processCalls := s.processCalls + 1 }
      match c.Process with
      | none =>
        if s1.consecutiveFailures.length > 0 then
          ({ s1 with consecutiveFailures := [] }, none)
        else
          (s1, none)
      | some err =>
        if isUnrecoverable err then
          (s1, some (StartError.passed err))
        else
          let s2 : LoopState E := { s1 with consecutiveFailures := s1.consecutiveFailures ++ [err] }
          if s2.consecutiveFailures.length ≥ defaultErrorCountToExit then
            (s2, some (StartError.unrecoverable s2.consecutiveFailures))
          else
            (s2, none)

/-- One wake-up of the `select` in the loop of `Start`. -/
inductive Event (E : Type) where
  /-- The case `<-ctx.Done()`. -/
  | ctxDone : Event E
  /-- A receive on `tickerCh` with `chOpen = false`; the flag is `ctx.Err() != nil`. -/
  | tickerClosed (ctxEnded : Bool) : Event E
  /-- A receive on `tickerCh` with `chOpen = true`, and what `process` then meets. -/
  | tick (c : Cycle E) : Event E
  deriving DecidableEq, Repr

/-- Where the loop of `Start` stands: blocked in the `select` for the next
wake-up, or returned (`none` is a nil return). -/
inductive Loop (E : Type) where
  | waiting (s : LoopState E) : Loop E
  | returned (s : LoopState E) (ret : Option (StartError E)) : Loop E
  deriving DecidableEq, Repr

/-- One iteration of the `for` loop of `Start`. -/
def loopBody {E : Type} (isUnrecoverable : E → Bool) (s : LoopState E) : Event E → Loop E
  | Event.ctxDone => Loop.returned s (some StartError.ctxErr)
  | Event.tickerClosed ctxEnded =>
    if ctxEnded then Loop.returned s none
    else Loop.returned s (some StartError.unknownTickerClosed)
  | Event.tick c =>
    match process isUnrecoverable s c with
    | (s1, some err) => Loop.returned s1 (some err)
    | (s1, none) => Loop.waiting s1

/-- The `for` loop of `Start` run over the wake-ups `evs`, from state `s`:
it stops at the first iteration that returns and consumes no later wake-up. -/
def runLoop {E : Type} (isUnrecoverable : E → Bool) : LoopState E → List (Event E) → Loop E
  | s, [] => Loop.waiting s
  | s, ev :: evs =>
    match loopBody isUnrecoverable s ev with
    | Loop.waiting s1 => runLoop isUnrecoverable s1 evs
    | Loop.returned s1 ret => Loop.returned s1 ret

/-- The loop of `Start` from its entry: `consecutiveFailures := whoops.Group{}`. -/
def startLoop {E : Type} (isUnrecoverable : E → Bool) (evs : List (Event E)) : Loop E :=
  runLoop isUnrecoverable { consecutiveFailures := [], processCalls := 0 } evs

/-- A wake-up by a tick whose cycle reaches `r.Process`, which returns `err`. -/
def cycleOf {E : Type} (err : Option E) : Event E :=
  Event.tick { ctxEnded := false, buildProcessors := none, Process := err }

/-- The wake-ups of consecutive cycles in which `r.Process` fails with the given errors. -/
def failures {E : Type} (errs : List E) : List (Event E) :=
  errs.map (fun e => cycleOf (some e))

end Relayer

/-! ## chain/paloma/client.go -/

namespace Paloma

/-- A Go `[]byte`: `none` is the nil slice. -/
abbrev GoBytes : Type := Option (List Nat)

/-- The function `strings.Contains`, on the characters of the two strings. -/
def stringsContains (s substr : String) : Bool :=
  s.toList.tails.any (fun t => substr.toList.isPrefixOf t)

/-- The marker that `QueryValidatorInfo` looks for in the message of a remote error. -/
def notFoundMarker : String := "item not found in store"

/-- The struct `BroadcastMessageSignatureIn`. -/
structure BroadcastMessageSignatureIn where
  ID : Nat
  QueueTypeName : String
  Signature : GoBytes
  ExtraData : GoBytes
  deriving DecidableEq, Repr

/-- The struct `ChainInfoIn`. -/
structure ChainInfoIn where
  ChainID : String
  AccAddress : String
  deriving DecidableEq, Repr

/-- The fields of `consensus.MsgAddMessagesSignatures_MsgSignedMessage` that
`broadcastMessageSignatures` writes. -/
structure MsgSignedMessage where
  Id : Nat
  QueueTypeName : String
  Signature : GoBytes
  ExtraData : GoBytes
  deriving DecidableEq, Repr

/-- The fields of `valset.MsgAddExternalChainInfoForValidator_ChainInfo` that
`AddExternalChainInfo` writes. -/
structure MsgChainInfo where
  ChainID : String
  Address : String
  deriving DecidableEq, Repr

/-- The `sdk.Msg` values that the two batching operations build. -/
inductive SdkMsg where
  | MsgAddMessagesSignatures (SignedMessages : List MsgSignedMessage) : SdkMsg
  | MsgAddExternalChainInfoForValidator (ChainInfos : List MsgChainInfo) : SdkMsg
  deriving DecidableEq, Repr

/-- What an operation that goes through the Message Sender did: the messages
it handed to `MessageSender.SendMsg`, in call order, and the error it returned. -/
structure Sent (E : Type) where
  calls : List SdkMsg
  err : Option E
  deriving DecidableEq, Repr

/-- The function `broadcastMessageSignatures`; `SendMsg` is the error that
`ms.SendMsg` answers for a message (its response is discarded by the code). -/
def broadcastMessageSignatures {E : Type} (SendMsg : SdkMsg → Option E)
    (signatures : List BroadcastMessageSignatureIn) : Sent E :=
  if signatures.length = 0 then
    { calls := [], err := none }
  else
    let signedMessages : List MsgSignedMessage :=
      signatures.foldl
        (fun acc sig => acc ++ [{ Id := sig.ID, QueueTypeName := sig.QueueTypeName,
                                  Signature := sig.Signature, ExtraData := sig.ExtraData }])
        []
    let msg := SdkMsg.MsgAddMessagesSignatures signedMessages
    { calls := [msg], err := SendMsg msg }

/-- The method `Client.BroadcastMessageSignatures`, with `c.MessageSender` as `SendMsg`. -/
def BroadcastMessageSignatures {E : Type} (SendMsg : SdkMsg → Option E)
    (signatures : List BroadcastMessageSignatureIn) : Sent E :=
  broadcastMessageSignatures SendMsg signatures

/-- The method `Client.AddExternalChainInfo`, with `c.MessageSender` as `SendMsg`. -/
def AddExternalChainInfo {E : Type} (SendMsg : SdkMsg → Option E)
    (chainInfos : List ChainInfoIn) : Sent E :=
  if chainInfos.length = 0 then
    { calls := [], err := none }
  else
    let infos : List MsgChainInfo :=
      chainInfos.foldl
        (fun acc ci => acc ++ [{ ChainID := ci.ChainID, Address := ci.AccAddress }])
        []
    let msg := SdkMsg.MsgAddExternalChainInfoForValidator infos
    { calls := [msg], err := SendMsg msg }

/-- The response `valset.QueryValidatorInfoResponse`: its field `Validator` is a
pointer, `none` when nil. -/
structure QueryValidatorInfoResponse (V : Type) where
  Validator : Option V
  deriving DecidableEq, Repr

/-- The method `Client.QueryValidatorInfo`; `remote` is what `qc.ValidatorInfo`
answers and `errorMsg` is the method `Error()` of the remote errors. The
result is the pair (validator, error). -/
def QueryValidatorInfo {E V : Type} (errorMsg : E → String)
    (remote : Except E (QueryValidatorInfoResponse V)) : Option V × Option E :=
  match remote with
  | Except.error err =>
    if stringsContains (errorMsg err) notFoundMarker then
      (none, none)
    else
      (none, some err)
  | Except.ok valInfoRes => (valInfoRes.Validator, none)

/-- The struct `chain.QueuedMessage`; `M` is the type of unpacked `consensus.Message` values. -/
structure QueuedMessage (M : Type) where
  ID : Nat
  Nonce : Nat
  BytesToSign : GoBytes
  Msg : M
  deriving DecidableEq, Repr

/-- What the getters of a remote `MessageToSign` give; `A` is the type of the
packed envelopes. -/
structure MessageToSign (A : Type) where
  Id : Nat
  Nonce : Nat
  BytesToSign : GoBytes
  Msg : A
  deriving DecidableEq, Repr

/-- The `range` loop of `queryMessagesForSigning` over the messages still to
visit, with `res` as built so far. -/
def signingLoop {E A M : Type} (UnpackAny : A → Except E M) :
    List (MessageToSign A) → List (QueuedMessage M) → Option (List (QueuedMessage M)) × Option E
  | [], res => (some res, none)
  | msg :: rest, res =>
    match UnpackAny msg.Msg with
    | Except.error err => (none, some err)
    | Except.ok ptr =>
      signingLoop UnpackAny rest
        (res ++ [{ ID := msg.Id, Nonce := msg.Nonce, BytesToSign := msg.BytesToSign, Msg := ptr }])

/-- The function `queryMessagesForSigning`; `remote` is what
`qc.QueuedMessagesForSigning` answers (the list is `GetMessageToSign()`) and
`UnpackAny` is the unpacker. The result is the pair (messages, error). -/
def queryMessagesForSigning {E A M : Type} (UnpackAny : A → Except E M)
    (remote : Except E (List (MessageToSign A))) : Option (List (QueuedMessage M)) × Option E :=
  match remote with
  | Except.error err => (none, some err)
  | Except.ok msgs => signingLoop UnpackAny msgs []

/-- The struct `chain.ValidatorSignature`. -/
structure ValidatorSignature where
  ValAddress : String
  Signature : GoBytes
  deriving DecidableEq, Repr

/-- The struct `chain.MessageWithSignatures`. -/
structure MessageWithSignatures (M : Type) where
  QueuedMessage : QueuedMessage M
  Signatures : List ValidatorSignature
  deriving DecidableEq, Repr

/-- An entry of `SignData` of a remote in-queue message. -/
structure RemoteValidatorSignature where
  ValAddress : String
  Signature : GoBytes
  deriving DecidableEq, Repr

/-- Modelled from the spec: the remote in-queue message type
`consensus.MessageWithSignatures`, whose declaration is outside the embedded
files. The spec gives each message a numeric ID, a numeric Nonce, the byte
payload to sign, the packed envelope and, in the in-queue variant, the
sequence of validator address and signature pairs. `QueryMessagesInQueue`
reads `Id`, `Nonce`, `Msg` and `SignData`. -/
structure RemoteMessageWithSignatures (A : Type) where
  Id : Nat
  Nonce : Nat
  BytesToSign : GoBytes
  Msg : A
  SignData : List RemoteValidatorSignature
  deriving DecidableEq, Repr

/-- The inner `range` loop of `QueryMessagesInQueue` over `msg.SignData`. -/
def collectSignatures (signData : List RemoteValidatorSignature) : List ValidatorSignature :=
  signData.foldl
    (fun valSigs vs => valSigs ++ [{ ValAddress := vs.ValAddress, Signature := vs.Signature }])
    []

/-- The outer `range` loop of `QueryMessagesInQueue` over the messages still
to visit, with `msgsWithSig` as built so far. The field `BytesToSign` of the
built `QueuedMessage` is not set by the code and keeps its zero value, nil. -/
def inQueueLoop {E A M : Type} (UnpackAny : A → Except E M) :
    List (RemoteMessageWithSignatures A) → List (MessageWithSignatures M) →
      Option (List (MessageWithSignatures M)) × Option E
  | [], msgsWithSig => (some msgsWithSig, none)
  | msg :: rest, msgsWithSig =>
    let valSigs := collectSignatures msg.SignData
    match UnpackAny msg.Msg with
    | Except.error err => (none, some err)
    | Except.ok ptr =>
      inQueueLoop UnpackAny rest
        (msgsWithSig ++
          [{ QueuedMessage := { ID := msg.Id, Nonce := msg.Nonce, BytesToSign := none, Msg := ptr },
             Signatures := valSigs }])

/-- The method `Client.QueryMessagesInQueue`; `remote` is what
`qc.MessagesInQueue` answers (the list is `msgs.Messages`). The final
`return msgsWithSig, err` returns the outer `err`, nil at that point. -/
def QueryMessagesInQueue {E A M : Type} (UnpackAny : A → Except E M)
    (remote : Except E (List (RemoteMessageWithSignatures A))) :
    Option (List (MessageWithSignatures M)) × Option E :=
  match remote with
  | Except.error err => (none, some err)
  | Except.ok msgs => inQueueLoop UnpackAny msgs []

end Paloma

/-! ## Properties of the control loop -/

namespace Relayer

variable {E : Type}

theorem process_success (isUnrecoverable : E → Bool) (s : LoopState E) :
    process isUnrecoverable s { ctxEnded := false, buildProcessors := none, Process := none }
      = ({ consecutiveFailures := [], processCalls := s.processCalls + 1 }, none) := by
  unfold process
  cases hs : s.consecutiveFailures <;> simp [hs]

theorem process_transient_below (isUnrecoverable : E → Bool) (s : LoopState E) (e : E)
    (he : isUnrecoverable e = false) (hlen : s.consecutiveFailures.length + 1 < 5) :
    process isUnrecoverable s { ctxEnded := false, buildProcessors := none, Process := some e }
      = ({ consecutiveFailures := s.consecutiveFailures ++ [e],
           processCalls := s.processCalls + 1 }, none) := by
  unfold process
  simp [he, defaultErrorCountToExit]
  omega

theorem process_transient_reach (isUnrecoverable : E → Bool) (s : LoopState E) (e : E)
    (he : isUnrecoverable e = false) (hlen : 5 ≤ s.consecutiveFailures.length + 1) :
    process isUnrecoverable s { ctxEnded := false, buildProcessors := none, Process := some e }
      = ({ consecutiveFailures := s.consecutiveFailures ++ [e],
           processCalls := s.processCalls + 1 },
         some (StartError.unrecoverable (s.consecutiveFailures ++ [e]))) := by
  unfold process
  simp [he, defaultErrorCountToExit]
  omega

theorem process_unrecoverable (isUnrecoverable : E → Bool) (s : LoopState E) (e : E)
    (he : isUnrecoverable e = true) :
    process isUnrecoverable s { ctxEnded := false, buildProcessors := none, Process := some e }
      = ({ consecutiveFailures := s.consecutiveFailures,
           processCalls := s.processCalls + 1 }, some (StartError.passed e)) := by
  unfold process
  simp [he]

theorem runLoop_append (isUnrecoverable : E → Bool) (evs1 evs2 : List (Event E)) :
    ∀ s : LoopState E, runLoop isUnrecoverable s (evs1 ++ evs2) =
      match runLoop isUnrecoverable s evs1 with
      | Loop.waiting s1 => runLoop isUnrecoverable s1 evs2
      | Loop.returned s1 ret => Loop.returned s1 ret := by
  induction evs1 with
  | nil => intro s; simp [runLoop]
  | cons ev evs ih =>
    intro s
    simp only [List.cons_append, runLoop]
    cases h : loopBody isUnrecoverable s ev with
    | waiting s1 => simpa using ih s1
    | returned s1 ret => rfl

theorem runLoop_failures_below (isUnrecoverable : E → Bool) (errs : List E) :
    ∀ s : LoopState E, (∀ e ∈ errs, isUnrecoverable e = false) →
      s.consecutiveFailures.length + errs.length < 5 →
      runLoop isUnrecoverable s (failures errs) =
        Loop.waiting { consecutiveFailures := s.consecutiveFailures ++ errs,
                       processCalls := s.processCalls + errs.length } := by
  induction errs with
  | nil => intro s _ _; simp [failures, runLoop]
  | cons e errs ih =>
    intro s htr hlen
    have he : isUnrecoverable e = false := htr e (List.mem_cons_self _ _)
    have hlen1 : s.consecutiveFailures.length + 1 < 5 := by
      simp only [List.length_cons] at hlen; omega
    have hstep := process_transient_below isUnrecoverable s e he hlen1
    have hrest := ih { consecutiveFailures := s.consecutiveFailures ++ [e],
                       processCalls := s.processCalls + 1 }
      (fun x hx => htr x (List.mem_cons_of_mem _ hx))
      (by simp only [List.length_append, List.length_cons, List.length_nil] at hlen ⊢; omega)
    have hbody : loopBody isUnrecoverable s (cycleOf (some e)) =
        Loop.waiting { consecutiveFailures := s.consecutiveFailures ++ [e],
                       processCalls := s.processCalls + 1 } := by
      simp only [loopBody, cycleOf, hstep]
    have hunfold : runLoop isUnrecoverable s (failures (e :: errs)) =
        runLoop isUnrecoverable { consecutiveFailures := s.consecutiveFailures ++ [e],
                                  processCalls := s.processCalls + 1 } (failures errs) := by
      simp only [failures, List.map_cons, runLoop, hbody]
    rw [hunfold, hrest]
    simp [Nat.add_assoc, Nat.add_comm 1]

theorem runLoop_failures_reach (isUnrecoverable : E → Bool) (errs : List E) (last : E)
    (rest : List (Event E)) (s : LoopState E)
    (htr : ∀ e ∈ errs, isUnrecoverable e = false) (hlast : isUnrecoverable last = false)
    (hlen : s.consecutiveFailures.length + errs.length + 1 = 5) :
    runLoop isUnrecoverable s (failures (errs ++ [last]) ++ rest) =
      Loop.returned { consecutiveFailures := s.consecutiveFailures ++ (errs ++ [last]),
                      processCalls := s.processCalls + (errs.length + 1) }
        (some (StartError.unrecoverable (s.consecutiveFailures ++ (errs ++ [last])))) := by
  have hsplit : failures (errs ++ [last]) ++ rest =
      failures errs ++ (cycleOf (some last) :: rest) := by
    simp [failures]
  have hinit := runLoop_failures_below isUnrecoverable errs s htr (by omega)
  have hstep := process_transient_reach isUnrecoverable
    { consecutiveFailures := s.consecutiveFailures ++ errs,
      processCalls := s.processCalls + errs.length } last hlast
    (by simp only [List.length_append]; omega)
  rw [hsplit, runLoop_append, hinit]
  simp only [runLoop, loopBody, cycleOf, hstep]
  simp [Nat.add_assoc]

theorem runLoop_success (isUnrecoverable : E → Bool) (s : LoopState E) (evs : List (Event E)) :
    runLoop isUnrecoverable s (cycleOf none :: evs) =
      runLoop isUnrecoverable { consecutiveFailures := [], processCalls := s.processCalls + 1 }
        evs := by
  simp only [runLoop, loopBody, cycleOf, process_success]

/-- Every run of `process` falls in one of six cases, by what the collaborators answer. -/
theorem process_cases (isUnrecoverable : E → Bool) (s : LoopState E) (c : Cycle E) :
    (c.ctxEnded = true ∧ process isUnrecoverable s c = (s, some StartError.ctxErr)) ∨
    (c.ctxEnded = false ∧ ∃ err, c.buildProcessors = some err ∧
      process isUnrecoverable s c = (s, some (StartError.passed err))) ∨
    (c.ctxEnded = false ∧ c.buildProcessors = none ∧ c.Process = none ∧
      process isUnrecoverable s c =
        ({ consecutiveFailures := [], processCalls := s.processCalls + 1 }, none)) ∨
    (c.ctxEnded = false ∧ c.buildProcessors = none ∧ ∃ err, c.Process = some err ∧
      isUnrecoverable err = true ∧
      process isUnrecoverable s c =
        ({ consecutiveFailures := s.consecutiveFailures, processCalls := s.processCalls + 1 },
          some (StartError.passed err))) ∨
    (c.ctxEnded = false ∧ c.buildProcessors = none ∧ ∃ err, c.Process = some err ∧
      isUnrecoverable err = false ∧ s.consecutiveFailures.length + 1 < 5 ∧
      process isUnrecoverable s c =
        ({ consecutiveFailures := s.consecutiveFailures ++ [err],
           processCalls := s.processCalls + 1 }, none)) ∨
    (c.ctxEnded = false ∧ c.buildProcessors = none ∧ ∃ err, c.Process = some err ∧
      isUnrecoverable err = false ∧ 5 ≤ s.consecutiveFailures.length + 1 ∧
      process isUnrecoverable s c =
        ({ consecutiveFailures := s.consecutiveFailures ++ [err],
           processCalls := s.processCalls + 1 },
          some (StartError.unrecoverable (s.consecutiveFailures ++ [err])))) := by
  obtain ⟨ended, build, proc⟩ := c
  cases ended with
  | true => left; exact ⟨rfl, by simp [process]⟩
  | false =>
    right
    cases build with
    | some err => left; exact ⟨rfl, err, rfl, by simp [process]⟩
    | none =>
      right
      cases proc with
      | none => left; exact ⟨rfl, rfl, rfl, process_success isUnrecoverable s⟩
      | some err =>
        right
        cases hu : isUnrecoverable err with
        | true => left; exact ⟨rfl, rfl, err, rfl, hu, process_unrecoverable isUnrecoverable s err hu⟩
        | false =>
          right
          by_cases hl : s.consecutiveFailures.length + 1 < 5
          · left
            exact ⟨rfl, rfl, err, rfl, hu, hl, process_transient_below isUnrecoverable s err hu hl⟩
          · right
            exact ⟨rfl, rfl, err, rfl, hu, by omega,
              process_transient_reach isUnrecoverable s err hu (by omega)⟩

theorem loopBody_waiting_length (isUnrecoverable : E → Bool) (s s1 : LoopState E) (ev : Event E)
    (h : loopBody isUnrecoverable s ev = Loop.waiting s1) :
    s1.consecutiveFailures.length < 5 := by
  cases ev with
  | ctxDone => simp [loopBody] at h
  | tickerClosed b => cases b <;> simp [loopBody] at h
  | tick c =>
    simp only [loopBody] at h
    rcases process_cases isUnrecoverable s c with
      ⟨_, hp⟩ | ⟨_, err, _, hp⟩ | ⟨_, _, _, hp⟩ | ⟨_, _, err, _, _, hp⟩ |
      ⟨_, _, err, _, _, hl, hp⟩ | ⟨_, _, err, _, _, _, hp⟩
    all_goals rw [hp] at h
    all_goals simp at h
    · rw [← h]; simp
    · rw [← h]; simpa using hl

theorem runLoop_waiting_length (isUnrecoverable : E → Bool) (evs : List (Event E)) :
    ∀ s s1 : LoopState E, s.consecutiveFailures.length < 5 →
      runLoop isUnrecoverable s evs = Loop.waiting s1 →
      s1.consecutiveFailures.length < 5 := by
  induction evs with
  | nil =>
    intro s s1 hs h
    simp only [runLoop, Loop.waiting.injEq] at h
    rw [← h]; exact hs
  | cons ev evs ih =>
    intro s s1 _ h
    simp only [runLoop] at h
    cases hb : loopBody isUnrecoverable s ev with
    | waiting s2 =>
      rw [hb] at h
      exact ih s2 s1 (loopBody_waiting_length isUnrecoverable s s2 ev hb) h
    | returned s2 ret => rw [hb] at h; simp at h

/-- A loop that has returned did so at one wake-up, reached while waiting. -/
theorem runLoop_returned_split (isUnrecoverable : E → Bool) (evs : List (Event E)) :
    ∀ (s s1 : LoopState E) (ret : Option (StartError E)),
      runLoop isUnrecoverable s evs = Loop.returned s1 ret →
      ∃ (before : List (Event E)) (ev : Event E) (after : List (Event E)) (s0 : LoopState E),
        evs = before ++ ev :: after ∧
        runLoop isUnrecoverable s before = Loop.waiting s0 ∧
        loopBody isUnrecoverable s0 ev = Loop.returned s1 ret := by
  induction evs with
  | nil => intro s s1 ret h; simp [runLoop] at h
  | cons ev evs ih =>
    intro s s1 ret h
    simp only [runLoop] at h
    cases hb : loopBody isUnrecoverable s ev with
    | waiting s2 =>
      rw [hb] at h
      obtain ⟨before, ev1, after, s0, hsplit, hrun, hret⟩ := ih s2 s1 ret h
      refine ⟨ev :: before, ev1, after, s0, by simp [hsplit], ?_, hret⟩
      simp only [runLoop, hb]
      exact hrun
    | returned s2 ret2 =>
      rw [hb] at h
      refine ⟨[], ev, evs, s, rfl, rfl, ?_⟩
      rw [hb]; exact h

theorem loopBody_returned_length (isUnrecoverable : E → Bool) (s s1 : LoopState E)
    (ev : Event E) (ret : Option (StartError E)) (hs : s.consecutiveFailures.length < 5)
    (h : loopBody isUnrecoverable s ev = Loop.returned s1 ret) :
    s1.consecutiveFailures.length ≤ 5 := by
  cases ev with
  | ctxDone =>
    simp only [loopBody, Loop.returned.injEq] at h
    rw [← h.1]; omega
  | tickerClosed b =>
    cases b <;> simp [loopBody] at h <;> (rw [← h.1]; omega)
  | tick c =>
    simp only [loopBody] at h
    rcases process_cases isUnrecoverable s c with
      ⟨_, hp⟩ | ⟨_, err, _, hp⟩ | ⟨_, _, _, hp⟩ | ⟨_, _, err, _, _, hp⟩ |
      ⟨_, _, err, _, _, hl, hp⟩ | ⟨_, _, err, _, _, _, hp⟩
    all_goals rw [hp] at h
    all_goals simp at h
    all_goals rw [← h.1]
    all_goals try simp only [List.length_append, List.length_cons, List.length_nil]
    all_goals omega

/-- C1: from the empty failure group, five consecutive cycles in which
`r.Process` fails with an error that is not unrecoverable behave as follows:
after each of the first four the loop is still waiting (`process` returned
nil) with the errors met so far in the group, and the fifth makes `Start`
return `errors.Unrecoverable(group)` with the group holding exactly the five
errors in their order; no later wake-up is consumed. -/
theorem start_five_failures_escalate (isUnrecoverable : E → Bool) (errs : List E)
    (hlen : errs.length = 5) (htr : ∀ e ∈ errs, isUnrecoverable e = false) :
    (∀ k, k < 5 →
      startLoop isUnrecoverable (failures (errs.take k)) =
        Loop.waiting { consecutiveFailures := errs.take k, processCalls := k }) ∧
    (∀ k e, k < 4 → errs[k]? = some e →
      (process isUnrecoverable { consecutiveFailures := errs.take k, processCalls := k }
        { ctxEnded := false, buildProcessors := none, Process := some e }).2 = none) ∧
    (∀ e, errs[4]? = some e →
      (process isUnrecoverable { consecutiveFailures := errs.take 4, processCalls := 4 }
        { ctxEnded := false, buildProcessors := none, Process := some e }).2
        = some (StartError.unrecoverable errs)) ∧
    (∀ rest, startLoop isUnrecoverable (failures errs ++ rest) =
      Loop.returned { consecutiveFailures := errs, processCalls := 5 }
        (some (StartError.unrecoverable errs))) := by
  have htake : ∀ k, ∀ e ∈ errs.take k, isUnrecoverable e = false :=
    fun k e he => htr e (List.mem_of_mem_take he)
  refine ⟨?_, ?_, ?_, ?_⟩
  · intro k hk
    have h := runLoop_failures_below isUnrecoverable (errs.take k)
      { consecutiveFailures := [], processCalls := 0 } (htake k)
      (by simp only [List.length_nil, List.length_take]; omega)
    have hk2 : (errs.take k).length = k := by
      simp only [List.length_take]; omega
    simpa [startLoop, hk2] using h
  · intro k e hk hget
    have he : isUnrecoverable e = false := htr e (List.getElem?_mem hget)
    have h := process_transient_below isUnrecoverable
      { consecutiveFailures := errs.take k, processCalls := k } e he
      (by simp only [List.length_take]; omega)
    rw [h]
  · intro e hget
    have he : isUnrecoverable e = false := htr e (List.getElem?_mem hget)
    have h := process_transient_reach isUnrecoverable
      { consecutiveFailures := errs.take 4, processCalls := 4 } e he
      (by simp only [List.length_take]; omega)
    have hsplit : errs.take 4 ++ [e] = errs := by
      have h5 : errs.take (4 + 1) = errs := List.take_of_length_le (by omega)
      have hs : errs.take (4 + 1) = errs.take 4 ++ errs[4]?.toList := List.take_succ
      rw [hget, h5] at hs
      simpa using hs.symm
    rw [h]
    simp [hsplit]
  · intro rest
    have hne : errs ≠ [] := by
      intro h; rw [h] at hlen; simp at hlen
    have hsplit : errs = errs.dropLast ++ [errs.getLast hne] :=
      (List.dropLast_append_getLast hne).symm
    have h := runLoop_failures_reach isUnrecoverable errs.dropLast (errs.getLast hne) rest
      { consecutiveFailures := [], processCalls := 0 }
      (fun e he => htr e (List.mem_of_mem_dropLast he))
      (htr _ (List.getLast_mem hne))
      (by simp only [List.length_nil, List.length_dropLast]; omega)
    rw [← hsplit] at h
    have hd : errs.dropLast.length + 1 = 5 := by
      simp only [List.length_dropLast]; omega
    rw [hd] at h
    simpa [startLoop] using h

/-- Witness of C1 on the errors 1, 2, 3, 4, 5, none of them unrecoverable. -/
theorem start_five_failures_escalate_witness :
    ([1, 2, 3, 4, 5] : List Nat).length = 5 ∧
    startLoop (fun _ : Nat => false) (failures [1, 2, 3, 4] ) =
      Loop.waiting { consecutiveFailures := [1, 2, 3, 4], processCalls := 4 } ∧
    startLoop (fun _ : Nat => false) (failures [1, 2, 3, 4, 5] ++ [cycleOf none]) =
      Loop.returned { consecutiveFailures := [1, 2, 3, 4, 5], processCalls := 5 }
        (some (StartError.unrecoverable [1, 2, 3, 4, 5])) :=
  have h := start_five_failures_escalate (fun _ : Nat => false) [1, 2, 3, 4, 5] rfl
    (fun _ _ => rfl)
  ⟨rfl, h.1 4 (by decide), h.2.2.2 [cycleOf none]⟩

/-- C2: whatever the failure group holds, a cycle in which `r.Process` returns
nil leaves the group empty and makes `process` return nil, so the loop keeps
waiting; and after fewer than five transient failures followed by one
success, four further transient failures leave the loop waiting and only the
fifth makes it return `errors.Unrecoverable` of exactly those five. -/
theorem start_success_resets_group (isUnrecoverable : E → Bool) :
    (∀ s : LoopState E,
      process isUnrecoverable s { ctxEnded := false, buildProcessors := none, Process := none }
        = ({ consecutiveFailures := [], processCalls := s.processCalls + 1 }, none) ∧
      loopBody isUnrecoverable s (cycleOf none)
        = Loop.waiting { consecutiveFailures := [], processCalls := s.processCalls + 1 }) ∧
    (∀ before after : List E, before.length < 5 → after.length = 5 →
      (∀ e ∈ before, isUnrecoverable e = false) → (∀ e ∈ after, isUnrecoverable e = false) →
      (∀ j, j < 5 →
        startLoop isUnrecoverable (failures before ++ cycleOf none :: failures (after.take j)) =
          Loop.waiting { consecutiveFailures := after.take j,
                         processCalls := before.length + 1 + j }) ∧
      (∀ rest,
        startLoop isUnrecoverable (failures before ++ cycleOf none :: (failures after ++ rest)) =
          Loop.returned { consecutiveFailures := after, processCalls := before.length + 1 + 5 }
            (some (StartError.unrecoverable after)))) := by
  refine ⟨fun s => ⟨process_success isUnrecoverable s, ?_⟩, ?_⟩
  · simp only [loopBody, cycleOf, process_success]
  · intro before after hb ha htb hta
    have hpre := runLoop_failures_below isUnrecoverable before
      { consecutiveFailures := [], processCalls := 0 } htb (by simpa using hb)
    refine ⟨?_, ?_⟩
    · intro j hj
      have hj2 : (after.take j).length = j := by
        simp only [List.length_take]; omega
      have hpost := runLoop_failures_below isUnrecoverable (after.take j)
        { consecutiveFailures := [], processCalls := 0 + before.length + 1 }
        (fun e he => hta e (List.mem_of_mem_take he))
        (by simp only [List.length_nil, hj2]; omega)
      rw [startLoop, runLoop_append, hpre]
      simp only [runLoop_success]
      rw [hpost, hj2]
      simp
    · intro rest
      have hne : after ≠ [] := by
        intro h; rw [h] at ha; simp at ha
      have hsplit : after = after.dropLast ++ [after.getLast hne] :=
        (List.dropLast_append_getLast hne).symm
      have hpost := runLoop_failures_reach isUnrecoverable after.dropLast (after.getLast hne) rest
        { consecutiveFailures := [], processCalls := 0 + before.length + 1 }
        (fun e he => hta e (List.mem_of_mem_dropLast he))
        (hta _ (List.getLast_mem hne))
        (by simp only [List.length_nil, List.length_dropLast]; omega)
      rw [← hsplit] at hpost
      have hd : after.dropLast.length + 1 = 5 := by
        simp only [List.length_dropLast]; omega
      rw [hd] at hpost
      rw [startLoop, runLoop_append, hpre]
      simp only [runLoop_success]
      rw [hpost]
      simp

/-- Witness of C2: two transient failures, one success, then five transient failures. -/
theorem start_success_resets_group_witness :
    startLoop (fun _ : Nat => false)
        (failures [1, 2] ++ cycleOf none :: failures (List.take 4 [3, 4, 5, 6, 7])) =
      Loop.waiting { consecutiveFailures := [3, 4, 5, 6], processCalls := 7 } ∧
    startLoop (fun _ : Nat => false)
        (failures [1, 2] ++ cycleOf none :: (failures [3, 4, 5, 6, 7] ++ [])) =
      Loop.returned { consecutiveFailures := [3, 4, 5, 6, 7], processCalls := 8 }
        (some (StartError.unrecoverable [3, 4, 5, 6, 7])) :=
  have h := (start_success_resets_group (fun _ : Nat => false)).2 [1, 2] [3, 4, 5, 6, 7]
    (by decide) rfl (fun _ _ => rfl) (fun _ _ => rfl)
  ⟨h.1 4 (by decide), h.2 []⟩

/-- C3: whatever the failure group holds, a cycle in which `r.Process` returns
an unrecoverable error `e` makes `process`, and with it `Start`, return `e`
itself in that cycle; the group is left as it was and `e` is not wrapped. This
holds in particular on the first cycle. -/
theorem start_unrecoverable_returns_at_once (isUnrecoverable : E → Bool) (s : LoopState E)
    (e : E) (he : isUnrecoverable e = true) (rest : List (Event E)) :
    process isUnrecoverable s { ctxEnded := false, buildProcessors := none, Process := some e }
      = ({ consecutiveFailures := s.consecutiveFailures, processCalls := s.processCalls + 1 },
          some (StartError.passed e)) ∧
    runLoop isUnrecoverable s (cycleOf (some e) :: rest)
      = Loop.returned
          { consecutiveFailures := s.consecutiveFailures, processCalls := s.processCalls + 1 }
          (some (StartError.passed e)) ∧
    startLoop isUnrecoverable (cycleOf (some e) :: rest)
      = Loop.returned { consecutiveFailures := [], processCalls := 1 }
          (some (StartError.passed e)) := by
  have hp := process_unrecoverable isUnrecoverable s e he
  have hp0 := process_unrecoverable isUnrecoverable
    { consecutiveFailures := [], processCalls := 0 } e he
  refine ⟨hp, ?_, ?_⟩
  · simp only [runLoop, loopBody, cycleOf, hp]
  · simp only [startLoop, runLoop, loopBody, cycleOf, hp0]

/-- Witness of C3: the unrecoverable error 9 arrives when the group holds three errors. -/
theorem start_unrecoverable_returns_at_once_witness :
    runLoop (fun n : Nat => decide (n = 9)) { consecutiveFailures := [1, 2, 3], processCalls := 3 }
        (cycleOf (some 9) :: [cycleOf none])
      = Loop.returned { consecutiveFailures := [1, 2, 3], processCalls := 4 }
          (some (StartError.passed 9)) :=
  (start_unrecoverable_returns_at_once (fun n : Nat => decide (n = 9))
    { consecutiveFailures := [1, 2, 3], processCalls := 3 } 9 (by decide) [cycleOf none]).2.1

/-- C10: the failure group stays below the threshold while the loop waits and
never exceeds it: in every state in which the loop of `Start` waits for the
next wake-up the group is shorter than `defaultErrorCountToExit`, in every
state in which it has returned the group has at most that length, and one run
of `process` either empties the group (success), leaves it as it was (ended
context, `buildProcessors` failure, unrecoverable error) or appends exactly
the one transient error; the wake-ups that run no cycle leave the state as
it was. -/
theorem start_group_bounded (isUnrecoverable : E → Bool) :
    (∀ (evs : List (Event E)) (s : LoopState E),
      startLoop isUnrecoverable evs = Loop.waiting s →
      s.consecutiveFailures.length < defaultErrorCountToExit) ∧
    (∀ (evs : List (Event E)) (s : LoopState E) (ret : Option (StartError E)),
      startLoop isUnrecoverable evs = Loop.returned s ret →
      s.consecutiveFailures.length ≤ defaultErrorCountToExit) ∧
    (∀ (s : LoopState E) (c : Cycle E),
      (c.ctxEnded = false ∧ c.buildProcessors = none ∧ c.Process = none ∧
        (process isUnrecoverable s c).1.consecutiveFailures = []) ∨
      ((c.ctxEnded = true ∨ (c.ctxEnded = false ∧ ∃ err, c.buildProcessors = some err) ∨
          (c.ctxEnded = false ∧ c.buildProcessors = none ∧
            ∃ err, c.Process = some err ∧ isUnrecoverable err = true)) ∧
        (process isUnrecoverable s c).1.consecutiveFailures = s.consecutiveFailures) ∨
      (c.ctxEnded = false ∧ c.buildProcessors = none ∧
        ∃ err, c.Process = some err ∧ isUnrecoverable err = false ∧
          (process isUnrecoverable s c).1.consecutiveFailures = s.consecutiveFailures ++ [err] ∧
          (process isUnrecoverable s c).1.consecutiveFailures.length
            = s.consecutiveFailures.length + 1)) ∧
    (∀ (s : LoopState E),
      loopBody isUnrecoverable s Event.ctxDone = Loop.returned s (some StartError.ctxErr) ∧
      loopBody isUnrecoverable s (Event.tickerClosed true) = Loop.returned s none ∧
      loopBody isUnrecoverable s (Event.tickerClosed false)
        = Loop.returned s (some StartError.unknownTickerClosed)) := by
  refine ⟨?_, ?_, ?_, ?_⟩
  · intro evs s h
    exact runLoop_waiting_length isUnrecoverable evs _ s (by simp) h
  · intro evs s ret h
    obtain ⟨before, ev, after, s0, _, hrun, hret⟩ :=
      runLoop_returned_split isUnrecoverable evs _ s ret h
    have h0 := runLoop_waiting_length isUnrecoverable before _ s0 (by simp) hrun
    exact loopBody_returned_length isUnrecoverable s0 s ev ret h0 hret
  · intro s c
    rcases process_cases isUnrecoverable s c with
      ⟨hc, hp⟩ | ⟨hc, err, hb, hp⟩ | ⟨hc, hb, hn, hp⟩ | ⟨hc, hb, err, he, hu, hp⟩ |
      ⟨hc, hb, err, he, hu, _, hp⟩ | ⟨hc, hb, err, he, hu, _, hp⟩
    · right; left; exact ⟨Or.inl hc, by rw [hp]⟩
    · right; left; exact ⟨Or.inr (Or.inl ⟨hc, err, hb⟩), by rw [hp]⟩
    · left; exact ⟨hc, hb, hn, by rw [hp]⟩
    · right; left; exact ⟨Or.inr (Or.inr ⟨hc, hb, err, he, hu⟩), by rw [hp]⟩
    · right; right; exact ⟨hc, hb, err, he, hu, by rw [hp], by rw [hp]; simp⟩
    · right; right; exact ⟨hc, hb, err, he, hu, by rw [hp], by rw [hp]; simp⟩
  · intro s
    exact ⟨rfl, rfl, rfl⟩

/-- Witness of C10: after four transient failures the waiting loop holds four
errors, and after the fifth the returned loop holds five. -/
theorem start_group_bounded_witness :
    startLoop (fun _ : Nat => false) (failures [1, 2, 3, 4])
      = Loop.waiting { consecutiveFailures := [1, 2, 3, 4], processCalls := 4 } ∧
    ([1, 2, 3, 4] : List Nat).length < defaultErrorCountToExit ∧
    startLoop (fun _ : Nat => false) (failures [1, 2, 3, 4, 5])
      = Loop.returned { consecutiveFailures := [1, 2, 3, 4, 5], processCalls := 5 }
          (some (StartError.unrecoverable [1, 2, 3, 4, 5])) ∧
    ([1, 2, 3, 4, 5] : List Nat).length ≤ defaultErrorCountToExit :=
  have h := start_group_bounded (fun _ : Nat => false)
  ⟨rfl, h.1 (failures [1, 2, 3, 4]) _ rfl, rfl, h.2.1 (failures [1, 2, 3, 4, 5]) _ _ rfl⟩

/-- C9, as stated, fails: when `tickerCh` is found closed after the context has
been cancelled the loop returns nil, and when `r.buildProcessors` fails in a cycle
its error is returned as it is, here the error 7, which is neither the
context error, nor unrecoverable, nor the unexpected-closure error. -/
theorem start_termination_counterexample :
    startLoop (fun _ : Nat => false) [Event.tickerClosed true]
      = Loop.returned { consecutiveFailures := [], processCalls := 0 } none ∧
    startLoop (fun _ : Nat => false)
        [Event.tick { ctxEnded := false, buildProcessors := some 7, Process := none }]
      = Loop.returned { consecutiveFailures := [], processCalls := 0 }
          (some (StartError.passed 7)) ∧
    (fun _ : Nat => false) 7 = false :=
  ⟨rfl, rfl, rfl⟩

/-- C9, amended: once `Start` is in its loop, each of the following wake-ups,
met while the loop waits, makes it return at once, whatever wake-ups follow:
the `ctx.Done()` case returns `ctx.Err()`; a tick that finds the context ended
returns `ctx.Err()` and leaves the state as it was, so `r.Process` is not
called, whatever `r.buildProcessors` and `r.Process` would have answered; a
failure of `r.buildProcessors` is returned unchanged, again without a call of
`r.Process`; an unrecoverable error of `r.Process` is returned unchanged; a
transient error that brings the group to the threshold returns
`errors.Unrecoverable(group)`; a closed `tickerCh` returns the
unexpected-closure error when the context has not ended and nil when it has.
A success or a transient error below the threshold leaves the loop waiting.
Conversely every return of the loop is one of these seven. -/
theorem start_termination_kinds (isUnrecoverable : E → Bool) :
    (∀ (before after : List (Event E)) (s0 : LoopState E),
      startLoop isUnrecoverable before = Loop.waiting s0 →
      startLoop isUnrecoverable (before ++ Event.ctxDone :: after)
        = Loop.returned s0 (some StartError.ctxErr) ∧
      (∀ c : Cycle E, c.ctxEnded = true →
        process isUnrecoverable s0 c = (s0, some StartError.ctxErr) ∧
        startLoop isUnrecoverable (before ++ Event.tick c :: after)
          = Loop.returned s0 (some StartError.ctxErr)) ∧
      (∀ (c : Cycle E) (err : E), c.ctxEnded = false → c.buildProcessors = some err →
        process isUnrecoverable s0 c = (s0, some (StartError.passed err)) ∧
        startLoop isUnrecoverable (before ++ Event.tick c :: after)
          = Loop.returned s0 (some (StartError.passed err))) ∧
      (∀ (c : Cycle E) (err : E), c.ctxEnded = false → c.buildProcessors = none →
        c.Process = some err → isUnrecoverable err = true →
        startLoop isUnrecoverable (before ++ Event.tick c :: after)
          = Loop.returned { consecutiveFailures := s0.consecutiveFailures,
                            processCalls := s0.processCalls + 1 }
              (some (StartError.passed err))) ∧
      (∀ (c : Cycle E) (err : E), c.ctxEnded = false → c.buildProcessors = none →
        c.Process = some err → isUnrecoverable err = false →
        defaultErrorCountToExit ≤ s0.consecutiveFailures.length + 1 →
        startLoop isUnrecoverable (before ++ Event.tick c :: after)
          = Loop.returned { consecutiveFailures := s0.consecutiveFailures ++ [err],
                            processCalls := s0.processCalls + 1 }
              (some (StartError.unrecoverable (s0.consecutiveFailures ++ [err])))) ∧
      (∀ (c : Cycle E) (err : E), c.ctxEnded = false → c.buildProcessors = none →
        c.Process = some err → isUnrecoverable err = false →
        s0.consecutiveFailures.length + 1 < defaultErrorCountToExit →
        startLoop isUnrecoverable (before ++ [Event.tick c])
          = Loop.waiting { consecutiveFailures := s0.consecutiveFailures ++ [err],
                           processCalls := s0.processCalls + 1 }) ∧
      (∀ c : Cycle E, c.ctxEnded = false → c.buildProcessors = none → c.Process = none →
        startLoop isUnrecoverable (before ++ [Event.tick c])
          = Loop.waiting { consecutiveFailures := [],
                           processCalls := s0.processCalls + 1 }) ∧
      startLoop isUnrecoverable (before ++ Event.tickerClosed false :: after)
        = Loop.returned s0 (some StartError.unknownTickerClosed) ∧
      startLoop isUnrecoverable (before ++ Event.tickerClosed true :: after)
        = Loop.returned s0 none) ∧
    (∀ (evs : List (Event E)) (s : LoopState E) (ret : Option (StartError E)),
      startLoop isUnrecoverable evs = Loop.returned s ret →
      ∃ (before : List (Event E)) (ev : Event E) (after : List (Event E))
        (s0 : LoopState E),
        evs = before ++ ev :: after ∧
        startLoop isUnrecoverable before = Loop.waiting s0 ∧
        ((ev = Event.ctxDone ∧ ret = some StartError.ctxErr ∧ s = s0) ∨
         (∃ c, ev = Event.tick c ∧ c.ctxEnded = true ∧ ret = some StartError.ctxErr ∧
            s = s0) ∨
         (∃ c err, ev = Event.tick c ∧ c.ctxEnded = false ∧ c.buildProcessors = some err ∧
            ret = some (StartError.passed err) ∧ s = s0) ∨
         (∃ c err, ev = Event.tick c ∧ c.ctxEnded = false ∧ c.buildProcessors = none ∧
            c.Process = some err ∧ isUnrecoverable err = true ∧
            ret = some (StartError.passed err) ∧
            s.consecutiveFailures = s0.consecutiveFailures) ∨
         (∃ c err, ev = Event.tick c ∧ c.ctxEnded = false ∧ c.buildProcessors = none ∧
            c.Process = some err ∧ isUnrecoverable err = false ∧
            s.consecutiveFailures = s0.consecutiveFailures ++ [err] ∧
            s.consecutiveFailures.length = defaultErrorCountToExit ∧
            ret = some (StartError.unrecoverable s.consecutiveFailures)) ∨
         (ev = Event.tickerClosed false ∧ ret = some StartError.unknownTickerClosed ∧
            s = s0) ∨
         (ev = Event.tickerClosed true ∧ ret = none ∧ s = s0))) := by
  constructor
  · intro before after s0 hrun
    have hrun0 : runLoop isUnrecoverable { consecutiveFailures := [], processCalls := 0 }
        before = Loop.waiting s0 := hrun
    have hstep : ∀ (ev : Event E) (rest : List (Event E)),
        startLoop isUnrecoverable (before ++ ev :: rest) =
          match loopBody isUnrecoverable s0 ev with
          | Loop.waiting s1 => runLoop isUnrecoverable s1 rest
          | Loop.returned s1 ret => Loop.returned s1 ret := by
      intro ev rest
      rw [startLoop, runLoop_append, hrun0]
      simp only [runLoop]
    refine ⟨?_, ?_, ?_, ?_, ?_, ?_, ?_, ?_, ?_⟩
    · rw [hstep]; simp only [loopBody]
    · intro c hc
      have hp : process isUnrecoverable s0 c = (s0, some StartError.ctxErr) := by
        simp [process, hc]
      refine ⟨hp, ?_⟩
      rw [hstep]; simp only [loopBody, hp]
    · intro c err hc hb
      have hp : process isUnrecoverable s0 c = (s0, some (StartError.passed err)) := by
        simp [process, hc, hb]
      refine ⟨hp, ?_⟩
      rw [hstep]; simp only [loopBody, hp]
    · intro c err hc hb he hu
      obtain ⟨ended, build, proc⟩ := c
      simp only at hc hb he
      subst hc hb he
      rw [hstep]
      simp only [loopBody, process_unrecoverable isUnrecoverable s0 err hu]
    · intro c err hc hb he hu hl
      obtain ⟨ended, build, proc⟩ := c
      simp only at hc hb he
      subst hc hb he
      rw [hstep]
      simp only [loopBody, process_transient_reach isUnrecoverable s0 err hu
        (by simpa [defaultErrorCountToExit] using hl)]
    · intro c err hc hb he hu hl
      obtain ⟨ended, build, proc⟩ := c
      simp only at hc hb he
      subst hc hb he
      rw [hstep]
      simp only [loopBody, runLoop, process_transient_below isUnrecoverable s0 err hu
        (by simpa [defaultErrorCountToExit] using hl)]
    · intro c hc hb he
      obtain ⟨ended, build, proc⟩ := c
      simp only at hc hb he
      subst hc hb he
      rw [hstep]
      simp only [loopBody, runLoop, process_success]
    · rw [hstep]; simp [loopBody]
    · rw [hstep]; simp [loopBody]
  · intro evs s ret h
    obtain ⟨before, ev, after, s0, hsplit, hrun, hret⟩ :=
      runLoop_returned_split isUnrecoverable evs _ s ret h
    have h0 := runLoop_waiting_length isUnrecoverable before _ s0 (by simp) hrun
    refine ⟨before, ev, after, s0, hsplit, hrun, ?_⟩
    cases ev with
    | ctxDone =>
      simp only [loopBody, Loop.returned.injEq] at hret
      exact Or.inl ⟨rfl, hret.2.symm, hret.1.symm⟩
    | tickerClosed b =>
      cases b with
      | true =>
        simp [loopBody] at hret
        exact Or.inr (Or.inr (Or.inr (Or.inr (Or.inr (Or.inr
          ⟨rfl, hret.2.symm, hret.1.symm⟩)))))
      | false =>
        simp [loopBody] at hret
        exact Or.inr (Or.inr (Or.inr (Or.inr (Or.inr (Or.inl
          ⟨rfl, hret.2.symm, hret.1.symm⟩)))))
    | tick c =>
      simp only [loopBody] at hret
      rcases process_cases isUnrecoverable s0 c with
        ⟨hc, hp⟩ | ⟨hc, err, hb, hp⟩ | ⟨hc, hb, hn, hp⟩ | ⟨hc, hb, err, he, hu, hp⟩ |
        ⟨hc, hb, err, he, hu, hl, hp⟩ | ⟨hc, hb, err, he, hu, hl, hp⟩
      all_goals rw [hp] at hret
      all_goals simp at hret
      · exact Or.inr (Or.inl ⟨c, rfl, hc, hret.2.symm, hret.1.symm⟩)
      · exact Or.inr (Or.inr (Or.inl ⟨c, err, rfl, hc, hb, hret.2.symm, hret.1.symm⟩))
      · refine Or.inr (Or.inr (Or.inr (Or.inl
          ⟨c, err, rfl, hc, hb, he, hu, hret.2.symm, ?_⟩)))
        rw [← hret.1]
      · refine Or.inr (Or.inr (Or.inr (Or.inr (Or.inl
          ⟨c, err, rfl, hc, hb, he, hu, ?_, ?_, ?_⟩))))
        · rw [← hret.1]
        · rw [← hret.1]
          simp only [List.length_append, List.length_cons, List.length_nil,
            defaultErrorCountToExit]
          omega
        · rw [← hret.1, ← hret.2]

/-- Witness of the amended C9: after one successful cycle, a tick that finds the
context ended returns `ctx.Err()` with the count of `r.Process` calls still at
one, although `r.Process` would have failed with the error 5 and a further
wake-up is pending; a failure 7 of `r.buildProcessors` is returned unchanged,
also without a call; and the loop that finds `tickerCh` closed after the
context has been cancelled returned at a wake-up reached while waiting. -/
theorem start_termination_kinds_witness :
    startLoop (fun _ : Nat => false) [cycleOf none]
      = Loop.waiting { consecutiveFailures := [], processCalls := 1 } ∧
    startLoop (fun _ : Nat => false)
        ([cycleOf none] ++
          Event.tick { ctxEnded := true, buildProcessors := none, Process := some 5 } ::
            [cycleOf none])
      = Loop.returned { consecutiveFailures := [], processCalls := 1 }
          (some StartError.ctxErr) ∧
    startLoop (fun _ : Nat => false)
        ([cycleOf none] ++
          Event.tick { ctxEnded := false, buildProcessors := some 7, Process := some 5 } ::
            [cycleOf none])
      = Loop.returned { consecutiveFailures := [], processCalls := 1 }
          (some (StartError.passed 7)) ∧
    ∃ (before : List (Event Nat)) (ev : Event Nat) (after : List (Event Nat))
      (s0 : LoopState Nat),
      [cycleOf none, Event.tickerClosed true] = before ++ ev :: after ∧
      startLoop (fun _ : Nat => false) before = Loop.waiting s0 :=
  have h := start_termination_kinds (fun _ : Nat => false)
  have h1 := h.1 [cycleOf none] [cycleOf none]
    { consecutiveFailures := [], processCalls := 1 } rfl
  ⟨rfl,
    (h1.2.1 { ctxEnded := true, buildProcessors := none, Process := some 5 } rfl).2,
    (h1.2.2.1 { ctxEnded := false, buildProcessors := some 7, Process := some 5 } 7
      rfl rfl).2,
    match h.2 [cycleOf none, Event.tickerClosed true]
      { consecutiveFailures := [], processCalls := 1 } none rfl with
    | ⟨before, ev, after, s0, h2, h3, _⟩ => ⟨before, ev, after, s0, h2, h3⟩⟩

end Relayer

/-! ## Properties of the protocol client -/

namespace Paloma

variable {E A M V : Type}

theorem foldl_append_singleton {α β : Type} (f : α → β) (l : List α) :
    ∀ init : List β, l.foldl (fun acc x => acc ++ [f x]) init = init ++ l.map f := by
  induction l with
  | nil => intro init; simp
  | cons x xs ih => intro init; simp [ih]

theorem stringsContains_iff (s substr : String) :
    stringsContains s substr = true ↔ List.IsInfix substr.toList s.toList := by
  unfold stringsContains
  rw [List.any_eq_true]
  constructor
  · rintro ⟨t, ht, hp⟩
    rw [List.mem_tails] at ht
    rw [List.isPrefixOf_iff_prefix] at hp
    exact List.infix_iff_prefix_suffix.mpr ⟨t, hp, ht⟩
  · intro h
    obtain ⟨t, hp, ht⟩ := List.infix_iff_prefix_suffix.mp h
    exact ⟨t, (List.mem_tails t s.toList).mpr ht, List.isPrefixOf_iff_prefix.mpr hp⟩

theorem signingLoop_all_unpack (UnpackAny : A → Except E M) (msgs : List (MessageToSign A)) :
    ∀ res : List (QueuedMessage M), (∀ m ∈ msgs, ∃ p, UnpackAny m.Msg = Except.ok p) →
      ∃ out : List (QueuedMessage M),
        signingLoop UnpackAny msgs res = (some (res ++ out), none) ∧
        List.Forall₂
          (fun m q => q.ID = m.Id ∧ q.Nonce = m.Nonce ∧ q.BytesToSign = m.BytesToSign ∧
            UnpackAny m.Msg = Except.ok q.Msg) msgs out := by
  induction msgs with
  | nil => intro res _; exact ⟨[], by simp [signingLoop], List.Forall₂.nil⟩
  | cons m rest ih =>
    intro res hall
    obtain ⟨p, hp⟩ := hall m (List.mem_cons_self _ _)
    obtain ⟨out, hrun, hrel⟩ :=
      ih (res ++ [{ ID := m.Id, Nonce := m.Nonce, BytesToSign := m.BytesToSign, Msg := p }])
        (fun x hx => hall x (List.mem_cons_of_mem _ hx))
    refine ⟨{ ID := m.Id, Nonce := m.Nonce, BytesToSign := m.BytesToSign, Msg := p } :: out,
      ?_, List.Forall₂.cons ⟨rfl, rfl, rfl, hp⟩ hrel⟩
    simp only [signingLoop, hp, hrun]
    simp

theorem signingLoop_first_failure (UnpackAny : A → Except E M)
    (before : List (MessageToSign A)) (m : MessageToSign A) (after : List (MessageToSign A))
    (e : E) (hm : UnpackAny m.Msg = Except.error e) :
    ∀ res : List (QueuedMessage M), (∀ x ∈ before, ∃ p, UnpackAny x.Msg = Except.ok p) →
      signingLoop UnpackAny (before ++ m :: after) res = (none, some e) := by
  induction before with
  | nil => intro res _; simp [signingLoop, hm]
  | cons x rest ih =>
    intro res hall
    obtain ⟨p, hp⟩ := hall x (List.mem_cons_self _ _)
    simp only [List.cons_append, signingLoop, hp]
    exact ih _ (fun y hy => hall y (List.mem_cons_of_mem _ hy))

theorem collectSignatures_eq_map (signData : List RemoteValidatorSignature) :
    collectSignatures signData =
      signData.map (fun vs => { ValAddress := vs.ValAddress, Signature := vs.Signature }) := by
  simp [collectSignatures, foldl_append_singleton]

theorem inQueueLoop_all_unpack (UnpackAny : A → Except E M)
    (msgs : List (RemoteMessageWithSignatures A)) :
    ∀ res : List (MessageWithSignatures M), (∀ m ∈ msgs, ∃ p, UnpackAny m.Msg = Except.ok p) →
      ∃ out : List (MessageWithSignatures M),
        inQueueLoop UnpackAny msgs res = (some (res ++ out), none) ∧
        List.Forall₂
          (fun m q => q.QueuedMessage.ID = m.Id ∧ q.QueuedMessage.Nonce = m.Nonce ∧
            q.QueuedMessage.BytesToSign = none ∧
            UnpackAny m.Msg = Except.ok q.QueuedMessage.Msg ∧
            q.Signatures = m.SignData.map
              (fun vs => { ValAddress := vs.ValAddress, Signature := vs.Signature }))
          msgs out := by
  induction msgs with
  | nil => intro res _; exact ⟨[], by simp [inQueueLoop], List.Forall₂.nil⟩
  | cons m rest ih =>
    intro res hall
    obtain ⟨p, hp⟩ := hall m (List.mem_cons_self _ _)
    obtain ⟨out, hrun, hrel⟩ :=
      ih (res ++ [{ QueuedMessage := { ID := m.Id, Nonce := m.Nonce, BytesToSign := none,
                                       Msg := p },
                    Signatures := collectSignatures m.SignData }])
        (fun x hx => hall x (List.mem_cons_of_mem _ hx))
    refine ⟨{ QueuedMessage := { ID := m.Id, Nonce := m.Nonce, BytesToSign := none, Msg := p },
              Signatures := collectSignatures m.SignData } :: out,
      ?_, List.Forall₂.cons ⟨rfl, rfl, rfl, hp, collectSignatures_eq_map _⟩ hrel⟩
    simp only [inQueueLoop, hp, hrun]
    simp

theorem inQueueLoop_first_failure (UnpackAny : A → Except E M)
    (before : List (RemoteMessageWithSignatures A)) (m : RemoteMessageWithSignatures A)
    (after : List (RemoteMessageWithSignatures A))
    (e : E) (hm : UnpackAny m.Msg = Except.error e) :
    ∀ res : List (MessageWithSignatures M),
      (∀ x ∈ before, ∃ p, UnpackAny x.Msg = Except.ok p) →
      inQueueLoop UnpackAny (before ++ m :: after) res = (none, some e) := by
  induction before with
  | nil => intro res _; simp [inQueueLoop, hm]
  | cons x rest ih =>
    intro res hall
    obtain ⟨p, hp⟩ := hall x (List.mem_cons_self _ _)
    simp only [List.cons_append, inQueueLoop, hp]
    exact ih _ (fun y hy => hall y (List.mem_cons_of_mem _ hy))

/-- C5: on an empty argument list `broadcastMessageSignatures`, the method
`BroadcastMessageSignatures` and `AddExternalChainInfo` return nil and hand no
message to `MessageSender.SendMsg`, whatever the sender would answer. -/
theorem empty_input_sends_nothing (SendMsg : SdkMsg → Option E) :
    broadcastMessageSignatures SendMsg [] = { calls := [], err := none } ∧
    BroadcastMessageSignatures SendMsg [] = { calls := [], err := none } ∧
    AddExternalChainInfo SendMsg [] = { calls := [], err := none } :=
  ⟨rfl, rfl, rfl⟩

/-- C6: on a non-empty argument list `BroadcastMessageSignatures` and
`AddExternalChainInfo` each call `MessageSender.SendMsg` exactly once, with one
message whose batch has the length of the input and whose i-th element carries
the fields of the i-th input unchanged, and each returns exactly the error
that this one call answered. -/
theorem nonempty_input_sends_one_batch (SendMsg : SdkMsg → Option E) :
    (∀ signatures : List BroadcastMessageSignatureIn, signatures ≠ [] →
      ∃ batch : List MsgSignedMessage,
        BroadcastMessageSignatures SendMsg signatures =
          { calls := [SdkMsg.MsgAddMessagesSignatures batch],
            err := SendMsg (SdkMsg.MsgAddMessagesSignatures batch) } ∧
        batch.length = signatures.length ∧
        ∀ (i : Nat) (sig : BroadcastMessageSignatureIn), signatures[i]? = some sig →
          batch[i]? = some ({ Id := sig.ID, QueueTypeName := sig.QueueTypeName,
                              Signature := sig.Signature, ExtraData := sig.ExtraData } :
                            MsgSignedMessage)) ∧
    (∀ chainInfos : List ChainInfoIn, chainInfos ≠ [] →
      ∃ batch : List MsgChainInfo,
        AddExternalChainInfo SendMsg chainInfos =
          { calls := [SdkMsg.MsgAddExternalChainInfoForValidator batch],
            err := SendMsg (SdkMsg.MsgAddExternalChainInfoForValidator batch) } ∧
        batch.length = chainInfos.length ∧
        ∀ (i : Nat) (ci : ChainInfoIn), chainInfos[i]? = some ci →
          batch[i]? = some ({ ChainID := ci.ChainID, Address := ci.AccAddress } :
                            MsgChainInfo)) := by
  constructor
  · intro signatures hne
    refine ⟨signatures.map (fun sig => { Id := sig.ID, QueueTypeName := sig.QueueTypeName,
                                         Signature := sig.Signature,
                                         ExtraData := sig.ExtraData }), ?_, ?_, ?_⟩
    · have hlen : signatures.length ≠ 0 := fun h => hne (List.length_eq_zero.mp h)
      simp [BroadcastMessageSignatures, broadcastMessageSignatures, hlen,
        foldl_append_singleton]
    · simp
    · intro i sig h
      simp [List.getElem?_map, h]
  · intro chainInfos hne
    refine ⟨chainInfos.map (fun ci => { ChainID := ci.ChainID, Address := ci.AccAddress }),
      ?_, ?_, ?_⟩
    · have hlen : chainInfos.length ≠ 0 := fun h => hne (List.length_eq_zero.mp h)
      simp [AddExternalChainInfo, hlen, foldl_append_singleton]
    · simp
    · intro i ci h
      simp [List.getElem?_map, h]

/-- Witness of C6: two signatures go out in one message, and the error 3 that
the sender answers is the error returned. -/
theorem nonempty_input_sends_one_batch_witness :
    ∃ batch : List MsgSignedMessage,
      BroadcastMessageSignatures (fun _ => some 3)
          [{ ID := 1, QueueTypeName := "a", Signature := some [1], ExtraData := none },
           { ID := 2, QueueTypeName := "b", Signature := some [2], ExtraData := some [] }] =
        { calls := [SdkMsg.MsgAddMessagesSignatures batch], err := some 3 } ∧
      batch.length = 2 :=
  match (nonempty_input_sends_one_batch (fun _ => some 3)).1
      [{ ID := 1, QueueTypeName := "a", Signature := some [1], ExtraData := none },
       { ID := 2, QueueTypeName := "b", Signature := some [2], ExtraData := some [] }]
      (by simp) with
  | ⟨batch, h1, h2, _⟩ => ⟨batch, h1, h2⟩

/-- C4, as stated, fails: when the remote call succeeds with a response whose
`Validator` is nil, `QueryValidatorInfo` returns the absent result (nil, nil)
although no remote error occurred. -/
theorem query_validator_info_counterexample :
    QueryValidatorInfo (fun e : String => e)
        (Except.ok { Validator := (none : Option Nat) }) = (none, none) ∧
    ¬ ∃ e : String,
        (Except.ok { Validator := (none : Option Nat) } :
          Except String (QueryValidatorInfoResponse Nat)) = Except.error e :=
  ⟨rfl, fun ⟨_, h⟩ => by cases h⟩

/-- C4, amended: `QueryValidatorInfo` returns the absent result (nil, nil) if and
only if the remote call fails with an error whose message contains the marker
"item not found in store", or succeeds with a response whose `Validator` is
nil; for every other remote error it returns (nil, that error), and when the
remote call succeeds it returns the `Validator` of the response and a nil
error. -/
theorem query_validator_info_cases (errorMsg : E → String)
    (remote : Except E (QueryValidatorInfoResponse V)) :
    (QueryValidatorInfo errorMsg remote = (none, none) ↔
      (∃ e, remote = Except.error e ∧
        List.IsInfix notFoundMarker.toList (errorMsg e).toList) ∨
      remote = Except.ok { Validator := none }) ∧
    (∀ e, remote = Except.error e →
      ¬ List.IsInfix notFoundMarker.toList (errorMsg e).toList →
      QueryValidatorInfo errorMsg remote = (none, some e)) ∧
    (∀ valInfoRes, remote = Except.ok valInfoRes →
      QueryValidatorInfo errorMsg remote = (valInfoRes.Validator, none)) := by
  refine ⟨?_, ?_, ?_⟩
  · cases remote with
    | error e =>
      by_cases hc : stringsContains (errorMsg e) notFoundMarker = true
      · have hi := (stringsContains_iff _ _).mp hc
        simp only [QueryValidatorInfo, hc, if_true, true_iff]
        exact Or.inl ⟨e, rfl, hi⟩
      · have hi : ¬ List.IsInfix notFoundMarker.toList (errorMsg e).toList :=
          fun h => hc ((stringsContains_iff _ _).mpr h)
        simp only [QueryValidatorInfo, hc]
        constructor
        · intro h; simp at h
        · rintro (⟨e1, h1, h2⟩ | h)
          · cases h1; exact absurd h2 hi
          · cases h
    | ok res =>
      obtain ⟨v⟩ := res
      simp only [QueryValidatorInfo]
      constructor
      · intro h
        right
        simp only [Prod.mk.injEq, and_true] at h
        rw [h]
      · rintro (⟨e1, h1, _⟩ | h)
        · cases h1
        · cases h; rfl
  · intro e he hi
    have hc : ¬ stringsContains (errorMsg e) notFoundMarker = true :=
      fun h => hi ((stringsContains_iff _ _).mp h)
    rw [he]
    simp only [QueryValidatorInfo, hc]
    simp
  · intro res he
    rw [he]
    rfl

/-- Witness of the amended C4: a remote error without the marker is returned unchanged. -/
theorem query_validator_info_cases_witness :
    QueryValidatorInfo (fun e : String => e)
        (Except.error "connection refused" : Except String (QueryValidatorInfoResponse Nat))
      = (none, some "connection refused") :=
  (query_validator_info_cases (fun e : String => e)
      (Except.error "connection refused" : Except String (QueryValidatorInfoResponse Nat))).2.1
    "connection refused" rfl
    (fun h => by
      have hc := (stringsContains_iff "connection refused" notFoundMarker).mpr h
      revert hc
      decide)

/-- C7: `queryMessagesForSigning` is all-or-nothing. A remote call error is
returned unchanged with no messages; if every envelope unpacks, the result is
a non-nil list and a nil error, with one `QueuedMessage` per remote message in
the remote order, each with the ID, Nonce and BytesToSign of its remote
message and the message its envelope unpacks to; if unpacking some envelope
fails after the earlier ones unpacked, the result is that error and no
messages. -/
theorem query_messages_for_signing_all_or_nothing (UnpackAny : A → Except E M) :
    (∀ e : E, queryMessagesForSigning UnpackAny (Except.error e) = (none, some e)) ∧
    (∀ msgs : List (MessageToSign A), (∀ m ∈ msgs, ∃ p, UnpackAny m.Msg = Except.ok p) →
      ∃ res : List (QueuedMessage M),
        queryMessagesForSigning UnpackAny (Except.ok msgs) = (some res, none) ∧
        res.length = msgs.length ∧
        List.Forall₂
          (fun m q => q.ID = m.Id ∧ q.Nonce = m.Nonce ∧ q.BytesToSign = m.BytesToSign ∧
            UnpackAny m.Msg = Except.ok q.Msg) msgs res) ∧
    (∀ (before : List (MessageToSign A)) (m : MessageToSign A) (after : List (MessageToSign A))
      (e : E), (∀ x ∈ before, ∃ p, UnpackAny x.Msg = Except.ok p) →
      UnpackAny m.Msg = Except.error e →
      queryMessagesForSigning UnpackAny (Except.ok (before ++ m :: after)) = (none, some e)) := by
  refine ⟨fun e => rfl, ?_, ?_⟩
  · intro msgs hall
    obtain ⟨out, hrun, hrel⟩ := signingLoop_all_unpack UnpackAny msgs [] hall
    refine ⟨out, ?_, hrel.length_eq.symm, hrel⟩
    simpa [queryMessagesForSigning] using hrun
  · intro before m after e hall hm
    exact signingLoop_first_failure UnpackAny before m after e hm [] hall

/-- Witness of C7: with an unpacker that fails on the envelope 0 with the
error 9, two good messages are both returned, and a good message followed by
a bad one gives the error alone. -/
theorem query_messages_for_signing_all_or_nothing_witness :
    (∃ res : List (QueuedMessage Nat),
      queryMessagesForSigning
          (fun a : Nat => if a = 0 then (Except.error 9 : Except Nat Nat) else Except.ok a)
          (Except.ok [{ Id := 1, Nonce := 10, BytesToSign := some [1], Msg := 5 },
                      { Id := 2, Nonce := 11, BytesToSign := none, Msg := 6 }])
        = (some res, none) ∧ res.length = 2) ∧
    queryMessagesForSigning
        (fun a : Nat => if a = 0 then (Except.error 9 : Except Nat Nat) else Except.ok a)
        (Except.ok ([{ Id := 1, Nonce := 10, BytesToSign := some [1], Msg := 5 }] ++
          { Id := 2, Nonce := 11, BytesToSign := none, Msg := 0 } :: []))
      = (none, some 9) :=
  have h := query_messages_for_signing_all_or_nothing
    (fun a : Nat => if a = 0 then (Except.error 9 : Except Nat Nat) else Except.ok a)
  ⟨match h.2.1 [{ Id := 1, Nonce := 10, BytesToSign := some [1], Msg := 5 },
                { Id := 2, Nonce := 11, BytesToSign := none, Msg := 6 }]
      (by simp) with
    | ⟨res, h1, h2, _⟩ => ⟨res, h1, h2⟩,
   h.2.2 [{ Id := 1, Nonce := 10, BytesToSign := some [1], Msg := 5 }]
      { Id := 2, Nonce := 11, BytesToSign := none, Msg := 0 } [] 9 (by simp) rfl⟩

/-- C8, as stated, fails: for a remote in-queue message that carries the payload
bytes `[170]`, the `QueuedMessage` that `QueryMessagesInQueue` returns has a
nil `BytesToSign`. -/
theorem query_messages_in_queue_counterexample :
    QueryMessagesInQueue (fun a : Nat => (Except.ok a : Except Nat Nat))
        (Except.ok [{ Id := 1, Nonce := 2, BytesToSign := some [170], Msg := 3,
                      SignData := [{ ValAddress := "val", Signature := some [7] }] }])
      = (some [{ QueuedMessage := { ID := 1, Nonce := 2, BytesToSign := none, Msg := 3 },
                 Signatures := [{ ValAddress := "val", Signature := some [7] }] }], none) :=
  rfl

/-- C8, amended: `QueryMessagesInQueue` returns a remote call error unchanged
with no messages; if every envelope unpacks, it returns a non-nil list and a
nil error, with one `MessageWithSignatures` per remote message in the remote
order, whose `QueuedMessage` has the ID and Nonce of the remote message, the
message its envelope unpacks to and a nil `BytesToSign`, and whose
`Signatures` has one entry per entry of `SignData`, in order, with the same
`ValAddress` and `Signature`; if unpacking some envelope fails after the
earlier ones unpacked, the result is that error and no messages. -/
theorem query_messages_in_queue_all_or_nothing (UnpackAny : A → Except E M) :
    (∀ e : E, QueryMessagesInQueue UnpackAny (Except.error e) = (none, some e)) ∧
    (∀ msgs : List (RemoteMessageWithSignatures A),
      (∀ m ∈ msgs, ∃ p, UnpackAny m.Msg = Except.ok p) →
      ∃ res : List (MessageWithSignatures M),
        QueryMessagesInQueue UnpackAny (Except.ok msgs) = (some res, none) ∧
        res.length = msgs.length ∧
        List.Forall₂
          (fun m q => q.QueuedMessage.ID = m.Id ∧ q.QueuedMessage.Nonce = m.Nonce ∧
            q.QueuedMessage.BytesToSign = none ∧
            UnpackAny m.Msg = Except.ok q.QueuedMessage.Msg ∧
            q.Signatures = m.SignData.map
              (fun vs => { ValAddress := vs.ValAddress, Signature := vs.Signature }))
          msgs res) ∧
    (∀ (before : List (RemoteMessageWithSignatures A)) (m : RemoteMessageWithSignatures A)
      (after : List (RemoteMessageWithSignatures A)) (e : E),
      (∀ x ∈ before, ∃ p, UnpackAny x.Msg = Except.ok p) →
      UnpackAny m.Msg = Except.error e →
      QueryMessagesInQueue UnpackAny (Except.ok (before ++ m :: after)) = (none, some e)) := by
  refine ⟨fun e => rfl, ?_, ?_⟩
  · intro msgs hall
    obtain ⟨out, hrun, hrel⟩ := inQueueLoop_all_unpack UnpackAny msgs [] hall
    refine ⟨out, ?_, hrel.length_eq.symm, hrel⟩
    simpa [QueryMessagesInQueue] using hrun
  · intro before m after e hall hm
    exact inQueueLoop_first_failure UnpackAny before m after e hm [] hall

/-- Witness of the amended C8: with an unpacker that fails on the envelope 0
with the error 9, a good message followed by a bad one gives the error alone,
and a single good message is returned. -/
theorem query_messages_in_queue_all_or_nothing_witness :
    (∃ res : List (MessageWithSignatures Nat),
      QueryMessagesInQueue
          (fun a : Nat => if a = 0 then (Except.error 9 : Except Nat Nat) else Except.ok a)
          (Except.ok [{ Id := 1, Nonce := 10, BytesToSign := some [1], Msg := 5,
                        SignData := [] }])
        = (some res, none) ∧ res.length = 1) ∧
    QueryMessagesInQueue
        (fun a : Nat => if a = 0 then (Except.error 9 : Except Nat Nat) else Except.ok a)
        (Except.ok ([{ Id := 1, Nonce := 10, BytesToSign := some [1], Msg := 5,
                       SignData := [] }] ++
          { Id := 2, Nonce := 11, BytesToSign := none, Msg := 0, SignData := [] } :: []))
      = (none, some 9) :=
  have h := query_messages_in_queue_all_or_nothing
    (fun a : Nat => if a = 0 then (Except.error 9 : Except Nat Nat) else Except.ok a)
  ⟨match h.2.1 [{ Id := 1, Nonce := 10, BytesToSign := some [1], Msg := 5, SignData := [] }]
      (by simp) with
    | ⟨res, h1, h2, _⟩ => ⟨res, h1, h2⟩,
   h.2.2 [{ Id := 1, Nonce := 10, BytesToSign := some [1], Msg := 5, SignData := [] }]
      { Id := 2, Nonce := 11, BytesToSign := none, Msg := 0, SignData := [] } [] 9
      (by simp) rfl⟩

end Paloma

end Pigeon
